import Mathlib

/-!
Verification of the Select-By-Index Blender add-on range logic.

The repository contains two near-duplicate operator implementations,
`src/__init__.py` and `src/SelectByIndex36.py`.  Both store the range as
`(start, count)` (Blender `IntProperty`s with hard minima `start ≥ 0`,
`count ≥ 1`, plus a mirror field `private_start`), expose the inclusive and
exclusive stop indices as computed getter/setter properties, re-clamp the
range against the live element count in `check`, and select with
`islice(sequence, start, exc_stop)` in `execute`.

The shallow embedding below models the operator property state explicitly.
Blender `IntProperty` assignment semantics are modelled faithfully:
an assigned value is clamped to the property's hard `min` and the `update`
callback (`update_start` for `start`) runs after each assignment.  The
getter/setter pair of `inc_stop` / `exc_stop` is the code's own
`get_inc_stop` / `set_inc_stop` / `get_exc_stop` / `set_exc_stop`.
Python integers are modelled as `Int` where intermediate values may go
negative; the stored fields are `Nat` because their property minima keep
them non-negative.
-/

namespace SBI

/-- The `select_mode` enum property: which element sequence is targeted. -/
inductive SelectMode where
  | VERTEX
  | EDGE
  | FACE
deriving DecidableEq, Repr

/-- The `input_mode` enum property: which range field the dialog shows. -/
inductive InputMode where
  | INCLUSIVE
  | EXCLUSIVE
  | COUNT
deriving DecidableEq, Repr

/-- Operator property state shared by both source variants:
`select_mode`, `input_mode`, `count` (min 1), `private_start` (min 0),
`start` (min 0), `replace_selection`. -/
@[ext]
structure OpState where
  select_mode : SelectMode
  input_mode : InputMode
  count : Nat
  private_start : Nat
  start : Nat
  replace_selection : Bool
deriving DecidableEq, Repr

/-- Default property values: `start = 0`, `count = 1`, `private_start = 0`,
first enum items, `replace_selection = True`. -/
def initState : OpState :=
  { select_mode := .VERTEX
    input_mode := .INCLUSIVE
    count := 1
    private_start := 0
    start := 0
    replace_selection := true }

/-- Python `update_start(self, context)`: if `input_mode != 'COUNT'` set
`count = max(count + private_start - start, 1)`; then
`private_start = start`.  Runs after every assignment to `start`. -/
def update_start (s : OpState) : OpState :=
  let c : Nat :=
    if s.input_mode ≠ .COUNT then
      (max ((s.count : Int) + (s.private_start : Int) - (s.start : Int)) 1).toNat
    else s.count
  { s with count := c, private_start := s.start }

/-- Assignment to the `start` property (hard `min=0`, `update=update_start`):
clamp the value to `≥ 0`, store it, then run the update callback. -/
def assignStart (s : OpState) (v : Int) : OpState :=
  update_start { s with start := (max v 0).toNat }

/-- Assignment to the `count` property (hard `min=1`, no update callback). -/
def assignCount (s : OpState) (v : Int) : OpState :=
  { s with count := (max v 1).toNat }

/-- Python `get_inc_stop(self)`: `start + count - 1`. -/
def get_inc_stop (s : OpState) : Int :=
  (s.start : Int) + (s.count : Int) - 1

/-- Python `get_exc_stop(self)`: `start + count`. -/
def get_exc_stop (s : OpState) : Int :=
  (s.start : Int) + (s.count : Int)

/-- Python `set_inc_stop(self, value)`: clamp `value` to `≥ 0`; in non-count modes a
value below `start` drags `start` down to it and sets `count = 1`; otherwise
`count = 1 + value - start`. -/
def set_inc_stop (s : OpState) (value : Int) : OpState :=
  let v := max value 0
  if s.input_mode ≠ .COUNT ∧ v < (s.start : Int) then
    assignCount (assignStart s v) 1
  else
    assignCount s (1 + v - (s.start : Int))

/-- Python `set_exc_stop(self, value)`: clamp `value` to `≥ 1`; in non-count modes a
value at or below `start` drags `start` down to `value - 1` and sets
`count = 1`; otherwise `count = value - start`. -/
def set_exc_stop (s : OpState) (value : Int) : OpState :=
  let v := max value 1
  if s.input_mode ≠ .COUNT ∧ v ≤ (s.start : Int) then
    assignCount (assignStart s (v - 1)) 1
  else
    assignCount s (v - (s.start : Int))

/-- Embedding of `SelectByIndex.check` of `src/__init__.py`, abstracted over the element
count `max_len` read from the bmesh for the current `select_mode`.
Reads `start` and the inclusive stop, and if either exceeds
`max_start = max(max_len - 1, 0)` pushes the clamped values back through the
`start` and `inc_stop` properties and reports a redraw. -/
def check (s : OpState) (max_len : Nat) : OpState × Bool :=
  let max_start : Int := max ((max_len : Int) - 1) 0
  let start : Int := (s.start : Int)
  let stop : Int := get_inc_stop s
  if start > max_start ∨ stop > max_start then
    (set_inc_stop (assignStart s (min start max_start)) (min stop max_start), true)
  else
    (s, false)

/-- Embedding of `SelectByIndex.check` of `src/SelectByIndex36.py`, abstracted over the
element count `max_len`.  Returns `False` without touching the state on an
empty sequence; otherwise clamps `start` to `max_index = max_len - 1`, reads
the stop through `inc_stop` (inclusive mode) or `exc_stop` (other modes), and
when it exceeds `max_len` pushes back `max_len` (exclusive mode) or
`max_index` (other modes) through the corresponding stop property. -/
def check36 (s : OpState) (max_len : Nat) : OpState × Bool :=
  if max_len < 1 then
    (s, false)
  else
    let max_index : Int := (max_len : Int) - 1
    let s1 := if (s.start : Int) > max_index then assignStart s max_index else s
    let stop : Int :=
      if s1.input_mode = .INCLUSIVE then get_inc_stop s1 else get_exc_stop s1
    if stop > (max_len : Int) then
      let stop2 : Int := if s1.input_mode = .EXCLUSIVE then (max_len : Int) else max_index
      if s1.input_mode = .INCLUSIVE then
        (set_inc_stop s1 stop2, true)
      else
        (set_exc_stop s1 stop2, true)
    else
      (s1, true)

/-- One step of the selection loop `for item in islice(seq, start, stop):
item.select = True`, tracking the index `i` of the list head: an element at
index `j` of the whole sequence gets `select = True` exactly when
`start ≤ j < stop`, and keeps its flag otherwise. -/
def markFrom (start stop : Nat) : Nat → List Bool → List Bool
  | _, [] => []
  | i, b :: rest =>
      (if start ≤ i ∧ i < stop then true else b) :: markFrom start stop (i + 1) rest

/-- The whole selection loop over the element sequence, starting at index 0. -/
def markRange (start stop : Nat) (sel : List Bool) : List Bool :=
  markFrom start stop 0 sel

/-- Embedding of `SelectByIndex.execute` of `src/__init__.py`, restricted to the selection
flags of the active `select_mode` sequence (the host-API calls
`select_mode`, `select_flush_mode`, `update_edit_mesh` are out of the model):
if `replace_selection`, `bpy.ops.mesh.select_all(action='DESELECT')` first
clears every flag; then the `islice(seq, start, exc_stop)` loop marks the
range. -/
def execute (s : OpState) (sel : List Bool) : List Bool :=
  let base := if s.replace_selection then sel.map (fun _ => false) else sel
  markRange s.start (get_exc_stop s).toNat base

/-- Embedding of `SelectByIndex.execute` of `src/SelectByIndex36.py`, same restriction:
its deselect / `islice(seq, start, self.exc_stop)` marking logic is textually
the same as the `__init__.py` variant (only host-API keyword arguments
differ). -/
def execute36 (s : OpState) (sel : List Bool) : List Bool :=
  let base := if s.replace_selection then sel.map (fun _ => false) else sel
  markRange s.start (get_exc_stop s).toNat base

/-- Well-formedness maintained by the property system: `count ≥ 1` (hard
minimum of the `count` property) and `private_start = start` (re-established
by `update_start` after every write to `start`). -/
def WF (s : OpState) : Prop :=
  1 ≤ s.count ∧ s.private_start = s.start

instance (s : OpState) : Decidable (WF s) := by
  unfold WF; infer_instance

/-- States reachable by the interactive dialog: the default state, followed by
any sequence of enum/flag switches, edits of the `start`, `inc_stop`,
`exc_stop` and `count` fields, and runs of either variant's `check`. -/
inductive Reachable : OpState → Prop where
  | init : Reachable initState
  | setSelectMode {s} (m : SelectMode) :
      Reachable s → Reachable { s with select_mode := m }
  | setInputMode {s} (m : InputMode) :
      Reachable s → Reachable { s with input_mode := m }
  | setReplace {s} (b : Bool) :
      Reachable s → Reachable { s with replace_selection := b }
  | editStart {s} (v : Int) : Reachable s → Reachable (assignStart s v)
  | editIncStop {s} (v : Int) : Reachable s → Reachable (set_inc_stop s v)
  | editExcStop {s} (v : Int) : Reachable s → Reachable (set_exc_stop s v)
  | editCount {s} (v : Int) : Reachable s → Reachable (assignCount s v)
  | runCheck {s} (n : Nat) : Reachable s → Reachable (check s n).1
  | runCheck36 {s} (n : Nat) : Reachable s → Reachable (check36 s n).1

/-! Concrete dialog states used in the spec's scenarios, built through the
property setters exactly as the corresponding UI edits would run. -/

/-- Inclusive mode, `start = 2` then `inc_stop = 5` typed into the dialog. -/
def c3InclState : OpState := set_inc_stop (assignStart initState 2) 5

/-- Exclusive mode, `start = 2` then `exc_stop = 6`. -/
def c3ExclState : OpState :=
  set_exc_stop (assignStart { initState with input_mode := .EXCLUSIVE } 2) 6

/-- Count mode, `start = 2` then `count = 4`. -/
def c3CountState : OpState :=
  assignCount (assignStart { initState with input_mode := .COUNT } 2) 4

/-- Count mode, `start = 8` then `count = 5` (the 10-edges scenario). -/
def c5State : OpState :=
  assignCount (assignStart { initState with input_mode := .COUNT } 8) 5

/-- Inclusive mode, `start = 3` then `inc_stop = 5`, `replace_selection` on
(its default): the 10-vertices replace scenario. -/
def c6State : OpState := set_inc_stop (assignStart initState 3) 5

/-- Inclusive mode, `start = 4` then `inc_stop = 5`, with
`replace_selection` switched off: the additive scenario. -/
def c7State : OpState :=
  { set_inc_stop (assignStart initState 4) 5 with replace_selection := false }

/-- An inclusive-mode state with `inc_stop = 1` (so `exc_stop = 2`),
reachable by typing `inc_stop = 1` at `start = 0`. -/
def c1IncTwoState : OpState := set_inc_stop initState 1

/-- Count mode, `start = 5` then `count = 10`: the state on which the two
variants' `check` steps disagree at element count 10. -/
def c8CexState : OpState :=
  assignCount (assignStart { initState with input_mode := .COUNT } 5) 10

/-- Exclusive mode, `start = 8` then `exc_stop = 15`. -/
def c8WitState : OpState :=
  set_exc_stop (assignStart { initState with input_mode := .EXCLUSIVE } 8) 15

/-- Inclusive mode, `start = 5` typed into the dialog from the defaults. -/
def c4WitState : OpState := assignStart initState 5

/-! Basic lemmas about the selection-marking loop. -/

theorem markFrom_length (a b : Nat) (l : List Bool) : ∀ i, (markFrom a b i l).length = l.length := by
  induction l with
  | nil => intro i; rfl
  | cons x xs ih => intro i; simp [markFrom, ih]

theorem markRange_length (a b : Nat) (l : List Bool) : (markRange a b l).length = l.length :=
  markFrom_length a b l 0

theorem markFrom_getD (a b : Nat) (l : List Bool) :
    ∀ i j, j < l.length →
      (markFrom a b i l).getD j false =
        if a ≤ i + j ∧ i + j < b then true else l.getD j false := by
  induction l with
  | nil => intro i j h; simp at h
  | cons x xs ih =>
    intro i j h
    cases j with
    | zero => simp [markFrom]
    | succ j =>
      have h' : j < xs.length := by simpa using h
      have := ih (i + 1) j h'
      have harith : i + 1 + j = i + (j + 1) := by omega
      simpa [markFrom, harith] using this

theorem markRange_getD (a b : Nat) (l : List Bool) (j : Nat) (h : j < l.length) :
    (markRange a b l).getD j false = if a ≤ j ∧ j < b then true else l.getD j false := by
  simpa using markFrom_getD a b l 0 j h

theorem markFrom_congr (st a b : Nat) (l : List Bool) :
    ∀ i, (∀ j, i ≤ j → j < i + l.length → (j < a ↔ j < b)) →
      markFrom st a i l = markFrom st b i l := by
  induction l with
  | nil => intro i _; rfl
  | cons x xs ih =>
    intro i h
    have h0 : i < a ↔ i < b := h i le_rfl (by simp)
    have hcond : (st ≤ i ∧ i < a) ↔ (st ≤ i ∧ i < b) := and_congr_right fun _ => h0
    simp only [markFrom]
    rw [if_congr hcond rfl rfl, ih (i + 1) fun j hj1 hj2 => h j (by omega) (by simp; omega)]

theorem markRange_congr (st a b : Nat) (l : List Bool)
    (h : ∀ j, j < l.length → (j < a ↔ j < b)) :
    markRange st a l = markRange st b l :=
  markFrom_congr st a b l 0 fun j _ hj2 => h j (by omega)

theorem map_false_getD (l : List Bool) (j : Nat) : (l.map fun _ => false).getD j false = false := by
  induction l generalizing j with
  | nil => cases j <;> rfl
  | cons x xs ih => cases j with
    | zero => rfl
    | succ j => exact ih j

/-- The exclusive stop used by `execute` is `start + count` as a natural. -/
theorem get_exc_stop_toNat (s : OpState) : (get_exc_stop s).toNat = s.start + s.count := by
  unfold get_exc_stop; omega

/-! Preservation of well-formedness by every property operation. -/

theorem update_start_WF {s : OpState} (h : 1 ≤ s.count) : WF (update_start s) := by
  unfold WF update_start
  refine ⟨?_, rfl⟩
  dsimp only
  split <;> omega

theorem assignStart_WF {s : OpState} (h : 1 ≤ s.count) (v : Int) : WF (assignStart s v) :=
  update_start_WF h

theorem assignCount_WF {s : OpState} (h : WF s) (v : Int) : WF (assignCount s v) := by
  unfold WF assignCount
  exact ⟨by dsimp only; omega, h.2⟩

theorem set_inc_stop_WF {s : OpState} (h : WF s) (v : Int) : WF (set_inc_stop s v) := by
  unfold set_inc_stop
  dsimp only
  split
  · exact assignCount_WF (assignStart_WF h.1 _) 1
  · exact assignCount_WF h _

theorem set_exc_stop_WF {s : OpState} (h : WF s) (v : Int) : WF (set_exc_stop s v) := by
  unfold set_exc_stop
  dsimp only
  split
  · exact assignCount_WF (assignStart_WF h.1 _) 1
  · exact assignCount_WF h _

theorem check_WF {s : OpState} (h : WF s) (n : Nat) : WF (check s n).1 := by
  unfold check
  dsimp only
  split
  · exact set_inc_stop_WF (assignStart_WF h.1 _) _
  · exact h

theorem check36_WF {s : OpState} (h : WF s) (n : Nat) : WF (check36 s n).1 := by
  unfold check36
  dsimp only
  split
  · exact h
  · split
    · have h1 : WF (assignStart s ((n : Int) - 1)) := assignStart_WF h.1 _
      split
      · split
        · exact set_inc_stop_WF h1 _
        · exact h1
      · split
        · exact set_exc_stop_WF h1 _
        · exact h1
    · split
      · split
        · exact set_inc_stop_WF h _
        · exact h
      · split
        · exact set_exc_stop_WF h _
        · exact h

/-! Resolution of the clamping steps: what interval each variant's `check`
leaves behind, for a non-empty element sequence. -/

/-- After `__init__.py`'s `check`, the stored range is
`[min start (N-1), min (start+count) N)` in every input mode, and the enum
and flag properties are untouched. -/
theorem check_spec (s : OpState) (N : Nat) (h : WF s) (hN : 1 ≤ N) :
    (check s N).1.start = min s.start (N - 1) ∧
    (check s N).1.start + (check s N).1.count = min (s.start + s.count) N ∧
    (check s N).1.select_mode = s.select_mode ∧
    (check s N).1.input_mode = s.input_mode ∧
    (check s N).1.replace_selection = s.replace_selection := by
  obtain ⟨hc, hp⟩ := h
  rcases s with ⟨sm, im, c, ps, st, rp⟩
  dsimp only at hc hp
  subst hp
  cases im <;>
    (simp only [check, set_inc_stop, assignStart, update_start, assignCount, get_inc_stop, ne_eq]
     split_ifs <;>
       (dsimp only
        refine ⟨by omega, by omega, rfl, rfl, rfl⟩))

set_option maxHeartbeats 1600000 in
/-- After `SelectByIndex36.py`'s `check`, `start` is clamped the same way but
the stored stop depends on the input mode: exclusive mode clamps
`exc_stop` to `N`, inclusive mode clamps `inc_stop` only when it exceeds `N`
(pushing `exc_stop` to `N`, but letting `exc_stop = N + 1` survive), and
count mode re-reads `exc_stop` after the start clamp and caps it at
`max_index = N - 1` (or at `start + 1` when start sits at `N - 1`). -/
theorem check36_spec (s : OpState) (N : Nat) (h : WF s) (hN : 1 ≤ N) :
    (check36 s N).1.start = min s.start (N - 1) ∧
    (check36 s N).1.select_mode = s.select_mode ∧
    (check36 s N).1.input_mode = s.input_mode ∧
    (check36 s N).1.replace_selection = s.replace_selection ∧
    (s.input_mode = .EXCLUSIVE →
      (check36 s N).1.start + (check36 s N).1.count = min (s.start + s.count) N) ∧
    (s.input_mode = .INCLUSIVE →
      (check36 s N).1.start + (check36 s N).1.count =
        if N + 1 < s.start + s.count then N else s.start + s.count) ∧
    (s.input_mode = .COUNT →
      (check36 s N).1.start + (check36 s N).1.count =
        if N < min s.start (N - 1) + s.count
        then max (N - 1) (min s.start (N - 1) + 1)
        else min s.start (N - 1) + s.count) := by
  obtain ⟨hc, hp⟩ := h
  rcases s with ⟨sm, im, c, ps, st, rp⟩
  dsimp only at hc hp
  subst hp
  cases im
  all_goals
    simp only [check36, set_inc_stop, set_exc_stop, assignStart, update_start, assignCount,
      get_inc_stop, get_exc_stop, ne_eq]
  all_goals split_ifs <;> try dsimp only at *
  all_goals
    refine ⟨?_, rfl, rfl, rfl, ?_, ?_, ?_⟩ <;>
      first
        | exact ‹False›.elim
        | omega
        | (intro hm
           first
             | exact ‹False›.elim
             | omega
             | exact absurd hm (by decide)
             | simp_all)
        | simp_all

theorem map_const_false (l : List Bool) :
    (l.map fun _ => false) = List.replicate l.length false := by
  induction l with
  | nil => rfl
  | cons x xs ih => simp [ih, List.replicate_succ]

/-- Every state the dialog can reach is well-formed. -/
theorem reachable_WF {s : OpState} (h : Reachable s) : WF s := by
  induction h with
  | init => exact ⟨le_refl 1, rfl⟩
  | setSelectMode m _ ih => exact ⟨ih.1, ih.2⟩
  | setInputMode m _ ih => exact ⟨ih.1, ih.2⟩
  | setReplace b _ ih => exact ⟨ih.1, ih.2⟩
  | editStart v _ ih => exact assignStart_WF ih.1 v
  | editIncStop v _ ih => exact set_inc_stop_WF ih v
  | editExcStop v _ ih => exact set_exc_stop_WF ih v
  | editCount v _ ih => exact assignCount_WF ih v
  | runCheck n _ ih => exact check_WF ih n
  | runCheck36 n _ ih => exact check36_WF ih n

/-- C2: in every reachable property state — any sequence of edits to
`start`, `inc_stop`, `exc_stop`, `count` and any runs of either `check` —
the resolved half-open interval `[start, exc_stop)` satisfies
`0 ≤ start ≤ exc_stop`; indeed `start < exc_stop`, so the resolver never
yields `clampedStart > clampedStop`. -/
theorem c2_interval_invariant (s : OpState) (h : Reachable s) :
    (0 : Int) ≤ (s.start : Int) ∧ (s.start : Int) < get_exc_stop s := by
  obtain ⟨hc, -⟩ := reachable_WF h
  unfold get_exc_stop
  constructor <;> omega

theorem c2_interval_invariant_witness :
    (0 : Int) ≤ (((check (set_inc_stop (assignStart initState 5) 2) 3).1).start : Int) ∧
    (((check (set_inc_stop (assignStart initState 5) 2) 3).1).start : Int) <
      get_exc_stop (check (set_inc_stop (assignStart initState 5) 2) 3).1 :=
  c2_interval_invariant _
    (Reachable.runCheck 3 (Reachable.editIncStop 2 (Reachable.editStart 5 Reachable.init)))

/-- C3: entering the range as inclusive stop 5 from start 2, as exclusive
stop 6 from start 2, or as count 4 from start 2 leaves the same canonical
state `start = 2`, `count = 4`, i.e. the same interval `[2, 6)`. -/
theorem c3_roundtrip_same_interval :
    c3InclState.start = 2 ∧ c3InclState.count = 4 ∧ get_exc_stop c3InclState = 6 ∧
    c3ExclState.start = 2 ∧ c3ExclState.count = 4 ∧ get_exc_stop c3ExclState = 6 ∧
    c3CountState.start = 2 ∧ c3CountState.count = 4 ∧ get_exc_stop c3CountState = 6 := by
  decide

/-- C9: the stop setters and the range state are total on all integer
inputs: `set_inc_stop` treats any value below 0 as 0, `set_exc_stop` treats
any value below 1 as 1, and every setter and both `check` steps preserve the
clamped in-bounds state (`count ≥ 1`, the `start` mirror in sync; `start`
and `count` are stored as naturals, so no out-of-range value survives). -/
theorem c9_totality_and_clamping (s : OpState) (v : Int) (n : Nat) (h : WF s) :
    (v ≤ 0 → set_inc_stop s v = set_inc_stop s 0) ∧
    (v ≤ 1 → set_exc_stop s v = set_exc_stop s 1) ∧
    WF (assignStart s v) ∧ WF (assignCount s v) ∧
    WF (set_inc_stop s v) ∧ WF (set_exc_stop s v) ∧
    WF (check s n).1 ∧ WF (check36 s n).1 := by
  refine ⟨?_, ?_, assignStart_WF h.1 v, assignCount_WF h v, set_inc_stop_WF h v,
    set_exc_stop_WF h v, check_WF h n, check36_WF h n⟩
  · intro hv
    unfold set_inc_stop
    rw [show max v 0 = max (0 : Int) 0 from by omega]
  · intro hv
    unfold set_exc_stop
    rw [show max v 1 = max (1 : Int) 1 from by omega]

theorem c9_totality_and_clamping_witness :
    set_inc_stop initState (-5) = set_inc_stop initState 0 ∧
    WF (set_exc_stop initState (-5)) := by
  have h := c9_totality_and_clamping initState (-5) 0 (by decide)
  exact ⟨h.1 (by decide), h.2.2.2.2.2.1⟩

/-- C10: two states that agree on `start`, `count`, `select_mode` and
`replace_selection` produce the same final selection flags under either
variant's `execute`, whatever their `input_mode`: the applied interval is
always `[start, start + count)` read through `exc_stop`. -/
theorem c10_input_mode_irrelevant_to_execute (s1 s2 : OpState) (sel : List Bool)
    (hstart : s1.start = s2.start) (hcount : s1.count = s2.count)
    (hsel : s1.select_mode = s2.select_mode)
    (hrep : s1.replace_selection = s2.replace_selection) :
    execute s1 sel = execute s2 sel ∧ execute36 s1 sel = execute36 s2 sel := by
  unfold execute execute36 get_exc_stop
  rw [hstart, hcount, hrep]
  exact ⟨rfl, rfl⟩

theorem c10_input_mode_irrelevant_to_execute_witness :
    execute { initState with input_mode := .COUNT } [true, false] =
      execute initState [true, false] :=
  (c10_input_mode_irrelevant_to_execute { initState with input_mode := .COUNT }
    initState [true, false] rfl rfl rfl rfl).1

/-- C4: in the non-count input modes, raising `start` past the current stop
collapses the range to the single-element interval `[start, start + 1)`
(`update_start` recomputes `count = 1`), and typing a stop below `start`
drags `start` down so the range becomes the one-element interval ending at
the new stop: `[v, v + 1)` for inclusive stop `v`, `[v - 1, v)` for
exclusive stop `v`. -/
theorem c4_bidirectional_coupling (s : OpState) (v : Int) (h : WF s)
    (hm : s.input_mode ≠ .COUNT) :
    (get_inc_stop s < v →
      (assignStart s v).start = v.toNat ∧ (assignStart s v).count = 1) ∧
    (0 ≤ v → v < (s.start : Int) →
      (set_inc_stop s v).start = v.toNat ∧ (set_inc_stop s v).count = 1) ∧
    (1 ≤ v → v < (s.start : Int) →
      (set_exc_stop s v).start = (v - 1).toNat ∧ (set_exc_stop s v).count = 1) := by
  obtain ⟨hc, hp⟩ := h
  refine ⟨?_, ?_, ?_⟩
  · intro hv
    unfold get_inc_stop at hv
    unfold assignStart update_start
    rw [if_pos hm]
    dsimp only
    constructor <;> omega
  · intro hv0 hvs
    unfold set_inc_stop
    rw [if_pos ⟨hm, by omega⟩]
    unfold assignCount assignStart update_start
    dsimp only
    constructor <;> omega
  · intro hv1 hvs
    unfold set_exc_stop
    rw [if_pos ⟨hm, by omega⟩]
    unfold assignCount assignStart update_start
    dsimp only
    constructor <;> omega

theorem c4_bidirectional_coupling_witness :
    ((assignStart c4WitState 9).start = (9 : Int).toNat ∧
      (assignStart c4WitState 9).count = 1) ∧
    ((set_inc_stop c4WitState 2).start = (2 : Int).toNat ∧
      (set_inc_stop c4WitState 2).count = 1) := by
  have h := c4_bidirectional_coupling c4WitState 9 (by decide) (by decide)
  have h2 := c4_bidirectional_coupling c4WitState 2 (by decide) (by decide)
  exact ⟨h.1 (by decide), h2.2.1 (by decide) (by decide)⟩

/-- C5: `execute` marks `selected = true` exactly at the indices of
`[start, min(start + count, N))` for a sequence of `N` elements; an index
outside `[start, start + count)` keeps its previous flag (or the cleared
flag when `replace_selection` is set). With `N = 0` the output sequence is
empty, and with `N = 10`, `start = 8`, `count = 5` exactly indices 8 and 9
are marked. -/
theorem c5_execute_marks_exactly_range (s : OpState) (sel : List Bool) :
    (execute s sel).length = sel.length ∧
    ∀ i, i < sel.length →
      ((s.start ≤ i ∧ i < s.start + s.count → (execute s sel).getD i false = true) ∧
       (¬(s.start ≤ i ∧ i < s.start + s.count) →
         (execute s sel).getD i false =
           if s.replace_selection then false else sel.getD i false)) := by
  have hblen : (if s.replace_selection then sel.map (fun _ => false) else sel).length
      = sel.length := by
    split <;> simp
  constructor
  · unfold execute
    rw [markRange_length, hblen]
  · intro i hi
    unfold execute
    rw [markRange_getD _ _ _ i (by rw [hblen]; exact hi), get_exc_stop_toNat]
    constructor
    · intro hin
      rw [if_pos hin]
    · intro hout
      rw [if_neg hout]
      split
      · exact map_false_getD sel i
      · rfl

theorem c5_execute_marks_exactly_range_witness :
    (execute c5State (List.replicate 10 false)).getD 9 false = true ∧
    (execute c5State (List.replicate 10 false)).getD 7 false = false := by
  have h := c5_execute_marks_exactly_range c5State (List.replicate 10 false)
  refine ⟨(h.2 9 (by decide)).1 (by decide), ?_⟩
  have h7 := (h.2 7 (by decide)).2 (by decide)
  rw [h7]
  decide

/-- C6: with `replace_selection` set, `execute` clears every flag before
marking, so for a 10-element sequence and the state entered as `start = 3`,
inclusive stop `5`, exactly indices 3, 4, 5 end selected and all others end
deselected, whatever the prior selection was. -/
theorem c6_replace_clears_then_marks (sel : List Bool) (h : sel.length = 10) :
    execute c6State sel =
      [false, false, false, true, true, true, false, false, false, false] := by
  have hc : c6State = ⟨.VERTEX, .INCLUSIVE, 3, 3, 3, true⟩ := by decide
  rw [hc]
  unfold execute
  rw [if_pos rfl, map_const_false, h]
  decide

theorem c6_replace_clears_then_marks_witness :
    execute c6State [true, true, true, true, true, true, true, true, true, true] =
      [false, false, false, true, true, true, false, false, false, false] :=
  c6_replace_clears_then_marks _ (by decide)

/-- C7: with `replace_selection` off, `execute` leaves every flag outside
`[clampedStart, clampedStop)` unchanged; in particular, from prior selection
`{0, 1}` and the new range `{4, 5}` the final selection is `{0, 1, 4, 5}`. -/
theorem c7_additive_preserves_outside (s : OpState) (sel : List Bool) (i : Nat)
    (hr : s.replace_selection = false) (hi : i < sel.length)
    (hout : i < s.start ∨ s.start + s.count ≤ i) :
    (execute s sel).getD i false = sel.getD i false := by
  unfold execute
  rw [if_neg (by rw [hr]; exact Bool.false_ne_true),
    markRange_getD _ _ _ i hi, get_exc_stop_toNat, if_neg (by omega)]

theorem c7_additive_preserves_outside_witness :
    (execute c7State [true, true, false, false, false, false, false, false, false, false]).getD
        1 false =
      [true, true, false, false, false, false, false, false, false, false].getD 1 false ∧
    execute c7State [true, true, false, false, false, false, false, false, false, false] =
      [true, true, false, false, true, true, false, false, false, false] :=
  ⟨c7_additive_preserves_outside c7State _ 1 rfl (by decide) (by decide), by decide⟩

/-- C1 counterexample: the claim "for every element count `N ≥ 0` the
resolved `clampedStop` after `check` satisfies `clampedStop ≤ N`" fails.
At `N = 0`, `__init__.py`'s `check` leaves the default state with
`exc_stop = 1 > 0`; and at `N = 1`, on the inclusive-mode state with
`inc_stop = 1` (so `exc_stop = 2`), `SelectByIndex36.py`'s `check` leaves
`exc_stop = 2 > 1` because it only clamps an inclusive stop that exceeds
`max_len`. -/
theorem c1_counterexample :
    ¬ ((check initState 0).1.start + (check initState 0).1.count ≤ 0) ∧
    ¬ ((check36 c1IncTwoState 1).1.start + (check36 c1IncTwoState 1).1.count ≤ 1) := by
  decide

/-- C1 amended: for every element count `N ≥ 1` and well-formed state,
`__init__.py`'s `check` resolves `clampedStart = min(start, N-1) ≥ 0` and
`clampedStop ≤ N`; `SelectByIndex36.py`'s `check` clamps `start` the same
way and guarantees `clampedStop ≤ N` in exclusive and count modes, but only
`clampedStop ≤ N + 1` in inclusive mode (the stored stop may stay at
`N + 1`).  At `N = 0` the stored stop stays at least `start + 1 > 0`. -/
theorem c1_check_clamps_interval (s : OpState) (N : Nat) (h : WF s) (hN : 1 ≤ N) :
    0 ≤ (check s N).1.start ∧
    (check s N).1.start = min s.start (N - 1) ∧
    (check s N).1.start + (check s N).1.count ≤ N ∧
    (check36 s N).1.start = min s.start (N - 1) ∧
    (check36 s N).1.start + (check36 s N).1.count ≤ N + 1 ∧
    (s.input_mode ≠ .INCLUSIVE → (check36 s N).1.start + (check36 s N).1.count ≤ N) := by
  obtain ⟨h1, h2, -, -, -⟩ := check_spec s N h hN
  obtain ⟨g1, -, -, -, gE, gI, gC⟩ := check36_spec s N h hN
  refine ⟨Nat.zero_le _, h1, by omega, g1, ?_, ?_⟩
  · cases hm : s.input_mode
    case INCLUSIVE =>
      have hr := gI hm
      split_ifs at hr <;> omega
    case EXCLUSIVE =>
      have hr := gE hm
      omega
    case COUNT =>
      have hr := gC hm
      split_ifs at hr <;> omega
  · intro hne
    cases hm : s.input_mode
    case INCLUSIVE => exact absurd hm hne
    case EXCLUSIVE =>
      have hr := gE hm
      omega
    case COUNT =>
      have hr := gC hm
      split_ifs at hr <;> omega

theorem c1_check_clamps_interval_witness :
    (check initState 1).1.start + (check initState 1).1.count ≤ 1 ∧
    (check36 initState 1).1.start = min initState.start (1 - 1) :=
  ⟨(c1_check_clamps_interval initState 1 (by decide) (by decide)).2.2.1,
   (c1_check_clamps_interval initState 1 (by decide) (by decide)).2.2.2.1⟩

/-- C8 counterexample: the two variants' `check` steps are not the same
algorithm.  In count mode with `start = 5`, `count = 10` and element count
10, `__init__.py`'s `check` resolves `[5, 10)` (count 5) while
`SelectByIndex36.py`'s `check` resolves `[5, 9)` (count 4), and the
subsequent `execute` runs select different index sets. -/
theorem c8_counterexample :
    (check c8CexState 10).1 ≠ (check36 c8CexState 10).1 ∧
    execute (check c8CexState 10).1 (List.replicate 10 false) ≠
      execute36 (check36 c8CexState 10).1 (List.replicate 10 false) := by
  decide

/-- C8 amended: the `execute` steps of the two variants are the same
function; on a non-empty sequence the two `check` steps leave exactly the
same state in exclusive mode, and in the two non-count modes the selections
made after the respective `check` steps coincide; count mode genuinely
differs. -/
theorem c8_core_equivalence :
    (∀ (s : OpState) (sel : List Bool), execute s sel = execute36 s sel) ∧
    (∀ (s : OpState) (N : Nat), WF s → 1 ≤ N → s.input_mode = .EXCLUSIVE →
      (check s N).1 = (check36 s N).1) ∧
    (∀ (s : OpState) (N : Nat) (sel : List Bool), WF s → 1 ≤ N → sel.length = N →
      s.input_mode ≠ .COUNT →
      execute (check s N).1 sel = execute36 (check36 s N).1 sel) := by
  refine ⟨fun s sel => rfl, ?_, ?_⟩
  · intro s N h hN hm
    obtain ⟨h1, h2, h3, h4, h5⟩ := check_spec s N h hN
    obtain ⟨g1, g2, g3, g4, gE, -, -⟩ := check36_spec s N h hN
    have hq := gE hm
    have hwa := check_WF h N
    have hwb := check36_WF h N
    ext
    · rw [h3, g2]
    · rw [h4, g3]
    · omega
    · rw [hwa.2, hwb.2, h1, g1]
    · rw [h1, g1]
    · rw [h5, g4]
  · intro s N sel h hN hlen hm
    obtain ⟨h1, h2, -, -, h5⟩ := check_spec s N h hN
    obtain ⟨g1, -, -, g4, gE, gI, -⟩ := check36_spec s N h hN
    show execute (check s N).1 sel = execute (check36 s N).1 sel
    unfold execute
    rw [h5, g4, get_exc_stop_toNat, get_exc_stop_toNat, h1, g1]
    have hblen : (if s.replace_selection then sel.map (fun _ => false) else sel).length
        = N := by
      split <;> simp [hlen]
    apply markRange_congr
    intro j hj
    rw [hblen] at hj
    cases hmode : s.input_mode
    case INCLUSIVE =>
      have hr := gI hmode
      split_ifs at hr <;> omega
    case EXCLUSIVE =>
      have hr := gE hmode
      omega
    case COUNT => exact absurd hmode hm

theorem c8_core_equivalence_witness :
    (check c8WitState 10).1 = (check36 c8WitState 10).1 :=
  c8_core_equivalence.2.1 c8WitState 10 (by decide) (by decide) rfl

end SBI
